import Mathlib

/-!
Shallow embedding of the impulse audio-spectrogram application
(`src/main.rs`) together with the parts of its library crate
(`impulse_editor`) and registry operations that the specification
describes but whose source is not under `src/`.  The sample type is a
type parameter `α`, mirroring the generic `T : Sample + Default`.
-/

namespace Impulse

/-- Error raised on the producer side when the consumer half of a track
channel has been destroyed (std `mpsc::Sender::send` returning `Err`). -/
inductive ChannelError where
  | ChannelClosed
deriving DecidableEq, Repr

/-- A producer handle (`std::sync::mpsc::Sender<T>`).  The std library
gives every call to `mpsc::channel()` a fresh queue; we model a sender as
the identity of the queue it feeds. -/
structure Sender (α : Type) where
  chanId : Nat
deriving DecidableEq, Repr

/-- `Channel<'a, T>` from `src/main.rs` lines 12–15: the accumulated
`samples: Vec<&'a T>` plus the `(Sender<T>, Receiver<T>)` pair.  The
mpsc pair is modelled by the queue contents (`pending`), the
consumer-alive flag (`closed`), and the queue identity (`chanId`). -/
structure Channel (α : Type) where
  samples : List α
  pending : List α
  closed : Bool
  chanId : Nat
deriving DecidableEq, Repr

/-- `Channel::new` (`src/main.rs` lines 22–27): empty accumulated buffer
and a fresh `mpsc::channel()` pair, here named by a fresh id. -/
def Channel.new (α : Type) (id : Nat) : Channel α :=
  { samples := [], pending := [], closed := false, chanId := id }

/-- `Channel::assign_sender` (`src/main.rs` lines 28–30):
`self.channel.0.clone()`.  It takes `&self`, so the channel value after
the call is the input unchanged; we return the pair to state that. -/
def Channel.assign_sender (c : Channel α) : Sender α × Channel α :=
  (⟨c.chanId⟩, c)

/-- Modelled from the spec (§4.2 `enqueue`) and the documented std
`mpsc::Sender::send` semantics; `src/main.rs` never calls it itself:
append one sample to the pending transport queue, or fail with
`ChannelClosed` when the consumer side has been destroyed. -/
def Channel.enqueue (c : Channel α) (x : α) : Except ChannelError (Channel α) :=
  if c.closed then Except.error ChannelError.ChannelClosed
  else Except.ok { c with pending := c.pending ++ [x] }

/-- Modelled from the spec (§4.2 `drain_pending`); no such operation
appears under `src/`: move every currently-pending sample, in arrival
order, from the transport queue into the accumulated buffer and return
the count drained. -/
def Channel.drain_pending (c : Channel α) : Channel α × Nat :=
  ({ c with samples := c.samples ++ c.pending, pending := [] }, c.pending.length)

/-- Fold `enqueue` over a list of samples, stopping at the first error
(a producer must treat `ChannelClosed` as stop-producing). -/
def enqueueAll (c : Channel α) (xs : List α) : Except ChannelError (Channel α) :=
  match xs with
  | [] => Except.ok c
  | x :: rest => (c.enqueue x).bind (fun c2 => enqueueAll c2 rest)

/-- `BufferSize` from `impulse_editor::widgets::spectrogram`.  Only
`BufferSize::All` appears in `src/main.rs`; the `Incremental` variant is
modelled from the spec (§4.3), which lists incremental policies as the
extensible second kind of Buffer Selector. -/
inductive BufferSize where
  | All
  | Incremental
deriving DecidableEq, Repr

/-- Modelled from the spec (§4.3 `select`); the selector is not a named
function under `src/` (the `view` code passes the whole buffer clone
with `BufferSize::All`): "All" returns the entire buffer with the cursor
reset, an incremental policy returns `buffer[cursor..end]` and advances
the cursor to the end. -/
def select (buffer : List α) (policy : BufferSize) (cursor : Nat) : List α × Nat :=
  match policy with
  | BufferSize.All => (buffer, 0)
  | BufferSize.Incremental => (buffer.drop cursor, buffer.length)

/-- `Spectrogram<'a, T>` from `impulse_editor::widgets` (not under
`src/`).  Modelled from the spec (§4.4): it keeps a back-reference to the
track's sender and a computed representation; the time-frequency math is
out of scope (§1), so the representation is abstracted as the ordered
sample sequence it was computed from. -/
structure Spectrogram (α : Type) where
  sender : Sender α
  representation : List α
deriving DecidableEq, Repr

/-- `Spectrogram::new(sender)`, modelled from the spec (§4.4): bound to
the track's producer handle, empty computed representation. -/
def Spectrogram.new (s : Sender α) : Spectrogram α :=
  { sender := s, representation := [] }

/-- Modelled from the spec (§4.4 `load`): an empty slice is a no-op;
with "All" the representation is recomputed in full from the slice; with
an incremental policy the newly selected samples are appended to the
existing representation. -/
def Spectrogram.load (sp : Spectrogram α) (slice : List α) (policy : BufferSize) :
    Spectrogram α :=
  if slice.isEmpty then sp
  else
    match policy with
    | BufferSize.All => { sp with representation := slice }
    | BufferSize.Incremental =>
      { sp with representation := sp.representation ++ slice }

/-- `style::Theme` is external crate code; modelled opaquely. -/
structure Theme where
  toNat : Nat
deriving DecidableEq, Repr

instance : Inhabited Theme := ⟨⟨0⟩⟩

/-- `State<'a, T>` from `src/main.rs` lines 34–46, restricted to its
data-carrying fields.  The `scrollable::State` / `button::State` fields
are opaque iced interaction state carrying no application data and are
omitted. -/
structure State (α : Type) where
  audio_playing : Bool
  theme : Theme
  spectrograms : List (Spectrogram α)
  channels : List (Channel α)
deriving DecidableEq, Repr

/-- `State::default()` (the `#[derive(Default)]` used by `Sandbox::new`):
`false`, default theme, empty vectors. -/
def State.init (α : Type) : State α :=
  { audio_playing := false, theme := default, spectrograms := [], channels := [] }

/-- `Message` from `src/main.rs` lines 49–56.  The file chosen in the
native dialog is an environment input, so `ImportAudioButtonPressed`
carries the dialog's outcome (`Option` of a path). -/
inductive Message where
  | ThemeChanged (t : Theme)
  | PlayButtonPressed
  | PauseButtonPressed
  | AddNewChannelButtonPressed
  | ImportAudioButtonPressed (file : Option String)

/-- `State::update` (`src/main.rs` lines 74–107).  Fresh mpsc queues are
named by `channels.length`, a valid fresh-id source because this program
never removes a channel.  `AddNewChannelButtonPressed` pushes a new
channel and then a spectrogram built from
`self.channels[self.channels.len() - 1].assign_sender()`;
`ImportAudioButtonPressed` builds `channel_out` first, then pushes both
halves only when the dialog returned a file. -/
def State.update (s : State α) (m : Message) : State α :=
  match m with
  | Message.ThemeChanged t => { s with theme := t }
  | Message.PlayButtonPressed => { s with audio_playing := true }
  | Message.PauseButtonPressed => { s with audio_playing := false }
  | Message.AddNewChannelButtonPressed =>
    let channels2 := s.channels ++ [Channel.new α s.channels.length]
    let last := channels2.getLast (by simp [channels2])
    { s with
      channels := channels2
      spectrograms := s.spectrograms ++ [Spectrogram.new (last.assign_sender).1] }
  | Message.ImportAudioButtonPressed file =>
    let channel_out := Channel.new α s.channels.length
    if file.isSome then
      let channels2 := s.channels ++ [channel_out]
      let last := channels2.getLast (by simp [channels2])
      { s with
        channels := channels2
        spectrograms := s.spectrograms ++ [Spectrogram.new (last.assign_sender).1] }
    else s

/-- The filter list built on `FileDialog::new()` in
`Message::ImportAudioButtonPressed` (`src/main.rs` lines 88–95). -/
def file_dialog_filters : List (String × List String) :=
  [("FLAC Audio File", ["flac"]),
   ("MPEG-3 Audio File", ["mp3"]),
   ("Ogg-Vorbis Audio File", ["ogg"]),
   ("WAV Audio File", ["wav"])]

/-- `samples_clone` from `State::view` (`src/main.rs` line 160):
`self.channels.iter().map(|c| c.samples.clone()).collect()`. -/
def samples_clone (s : State α) : List (List α) :=
  s.channels.map (fun c => c.samples)

/-- The spectrogram column of `State::view` (`src/main.rs` lines
162–170): for each `(i, s)` in `spectrograms.iter().enumerate()`, the
code clones `s`, calls `load(samples_clone[i].clone(), BufferSize::All)`
on the clone, and then pushes `s.clone()` — the original, not the loaded
clone — onto the column.  This returns the spectrograms in the order
they are pushed for display. -/
def view_displayed (s : State α) : List (Spectrogram α) :=
  (s.spectrograms.enum).foldl
    (fun acc p =>
      let _cloned := (p.2).load ((samples_clone s).getD p.1 []) BufferSize.All
      acc ++ [p.2])
    []

/-- Run the app: fold `update` over a message sequence from the initial
state ("reachable state" below means a state of this form). -/
def State.run (α : Type) (msgs : List Message) : State α :=
  msgs.foldl State.update (State.init α)

/-- Enqueue one sample into the channel of the given id inside a list of
live channels.  A sender whose channel is no longer in the list observes
`ChannelClosed` (the consumer half was destroyed). -/
def enqueueList : List (Channel α) → Nat → α → Except ChannelError (List (Channel α))
  | [], _, _ => Except.error ChannelError.ChannelClosed
  | c :: cs, id, x =>
    if c.chanId = id then (c.enqueue x).map (fun c2 => c2 :: cs)
    else (enqueueList cs id x).map (fun cs2 => c :: cs2)

/-- Modelled from the spec (§4.5 Track Registry): the collection of live
track channels plus the allocation counter naming fresh mpsc pairs; the
registry is owned by the host and `src/main.rs` only ever adds tracks. -/
structure ChannelWorld (α : Type) where
  nextId : Nat
  channels : List (Channel α)
deriving DecidableEq, Repr

/-- Modelled from the spec (§4.2 `create` / §4.5 `add_track`): append a
new channel with an empty buffer and a fresh send/receive pair, and
return the new track's sender handle. -/
def ChannelWorld.create (w : ChannelWorld α) : Sender α × ChannelWorld α :=
  (⟨w.nextId⟩,
   { nextId := w.nextId + 1, channels := w.channels ++ [Channel.new α w.nextId] })

/-- Modelled from the spec (§4.5 `remove_track`): destroy the track's
channel, consumer side included, so outstanding sender handles for it
are invalidated. -/
def ChannelWorld.remove_track (w : ChannelWorld α) (id : Nat) : ChannelWorld α :=
  { w with channels := w.channels.filter (fun c => c.chanId != id) }

/-- Enqueue through a sender handle against the registry: locate the
sender's channel and append; `ChannelClosed` when it has been removed. -/
def ChannelWorld.enqueue (w : ChannelWorld α) (s : Sender α) (x : α) :
    Except ChannelError (ChannelWorld α) :=
  (enqueueList w.channels s.chanId x).map (fun cs => { w with channels := cs })

/-- Modelled from the spec (§4.3, §8): repeated incremental selection
over a growing buffer.  `adds` is the list of sample batches arriving
between refreshes; each step extends the buffer, selects with the
incremental policy at the current cursor, and recurses with the updated
cursor.  Returns the slices in call order and the final buffer. -/
def selectChain : List (List α) → List α → Nat → List (List α) × List α
  | [], buffer, _ => ([], buffer)
  | a :: rest, buffer, cursor =>
    let buffer2 := buffer ++ a
    let sc := select buffer2 BufferSize.Incremental cursor
    let r := selectChain rest buffer2 sc.2
    (sc.1 :: r.1, r.2)

/-- Concrete state exhibiting the discarded-load slip in `State::view`:
one track whose accumulated buffer holds one sample, displayed by an
engine whose representation is still empty. -/
def bug_state : State Int :=
  { audio_playing := false
    theme := default
    spectrograms := [Spectrogram.new ⟨0⟩]
    channels := [{ samples := [1], pending := [], closed := false, chanId := 0 }] }

/-- Concrete two-track registry used to instantiate the channel-closure
theorem. -/
def w6 : ChannelWorld Int :=
  { nextId := 2, channels := [Channel.new Int 0, Channel.new Int 1] }

/-- Concrete one-track registry used to instantiate the fresh-creation
theorem. -/
def w7 : ChannelWorld Int :=
  { nextId := 1, channels := [Channel.new Int 0] }

/-! ### Helper lemmas -/

/-- `Except.map` composes. -/
theorem except_map_comp (e : Except ε β) (f : β → γ) (g : γ → δ) :
    (e.map f).map g = e.map (fun b => g (f b)) := by
  cases e <;> rfl

/-- Enqueuing a whole list into an open channel succeeds and appends the
list, in order, to the pending queue. -/
theorem enqueueAll_open (xs : List α) : ∀ (c : Channel α), c.closed = false →
    enqueueAll c xs = Except.ok { c with pending := c.pending ++ xs } := by
  induction xs with
  | nil => intro c h; simp [enqueueAll]
  | cons x rest ih =>
    intro c h
    have hstep : c.enqueue x = Except.ok { c with pending := c.pending ++ [x] } := by
      simp [Channel.enqueue, h]
    calc enqueueAll c (x :: rest)
        = enqueueAll { c with pending := c.pending ++ [x] } rest := by
          simp [enqueueAll, hstep, Except.bind]
      _ = Except.ok { c with pending := (c.pending ++ [x]) ++ rest } :=
          ih { c with pending := c.pending ++ [x] } h
      _ = Except.ok { c with pending := c.pending ++ x :: rest } := by simp

/-- Loading incrementally always appends the slice to the existing
representation (an empty slice is a no-op, which is the same thing). -/
theorem load_incremental_append (sp : Spectrogram α) (slice : List α) :
    (sp.load slice BufferSize.Incremental).representation =
      sp.representation ++ slice := by
  cases slice with
  | nil => simp [Spectrogram.load]
  | cons y ys => simp [Spectrogram.load]

/-- The incremental selection chain partitions the buffer growth: the
starting buffer followed by the concatenated slices is the final
buffer, when the cursor starts at the current end. -/
theorem selectChain_partitions (adds : List (List α)) : ∀ (buffer : List α),
    buffer ++ (selectChain adds buffer buffer.length).1.flatten =
      (selectChain adds buffer buffer.length).2 := by
  induction adds with
  | nil => intro buffer; simp [selectChain]
  | cons a rest ih =>
    intro buffer
    have ih2 := ih (buffer ++ a)
    simp only [selectChain, select, List.length_append] at ih2 ⊢
    simp only [List.flatten_cons, List.drop_left]
    rw [← List.append_assoc]
    simpa using ih2

/-- Folding incremental loads over a list of slices appends their
concatenation to the engine's representation. -/
theorem foldl_load_incremental (slices : List (List α)) : ∀ (sp : Spectrogram α),
    (slices.foldl (fun e sl => e.load sl BufferSize.Incremental) sp).representation =
      sp.representation ++ slices.flatten := by
  induction slices with
  | nil => intro sp; simp
  | cons a rest ih =>
    intro sp
    simp [List.foldl_cons, ih, load_incremental_append, List.append_assoc]

/-- One `update` step preserves the channel/spectrogram pairing
invariant: channel ids are exactly the positions `0..len`, spectrogram
sender ids match them, and the two vectors have the same length. -/
theorem update_preserves_pairing (s : State α) (m : Message)
    (h1 : s.channels.map Channel.chanId = List.range s.channels.length)
    (h2 : s.spectrograms.map (fun sp => sp.sender.chanId) =
      List.range s.channels.length)
    (h3 : s.channels.length = s.spectrograms.length) :
    (s.update m).channels.map Channel.chanId =
      List.range (s.update m).channels.length ∧
    (s.update m).spectrograms.map (fun sp => sp.sender.chanId) =
      List.range (s.update m).channels.length ∧
    (s.update m).channels.length = (s.update m).spectrograms.length := by
  cases m with
  | ThemeChanged t => exact ⟨h1, h2, h3⟩
  | PlayButtonPressed => exact ⟨h1, h2, h3⟩
  | PauseButtonPressed => exact ⟨h1, h2, h3⟩
  | AddNewChannelButtonPressed =>
    refine ⟨?_, ?_, ?_⟩ <;>
      simp [State.update, Channel.new, Channel.assign_sender, Spectrogram.new,
        h1, h2, h3, List.range_succ]
  | ImportAudioButtonPressed file =>
    cases file with
    | none => exact ⟨h1, h2, h3⟩
    | some f =>
      refine ⟨?_, ?_, ?_⟩ <;>
        simp [State.update, Channel.new, Channel.assign_sender, Spectrogram.new,
          h1, h2, h3, List.range_succ]

/-- The pairing invariant holds along any run of `update`. -/
theorem run_pairing_aux (msgs : List Message) : ∀ (s : State α),
    (s.channels.map Channel.chanId = List.range s.channels.length ∧
     s.spectrograms.map (fun sp => sp.sender.chanId) =
       List.range s.channels.length ∧
     s.channels.length = s.spectrograms.length) →
    ((msgs.foldl State.update s).channels.map Channel.chanId =
       List.range (msgs.foldl State.update s).channels.length ∧
     (msgs.foldl State.update s).spectrograms.map (fun sp => sp.sender.chanId) =
       List.range (msgs.foldl State.update s).channels.length ∧
     (msgs.foldl State.update s).channels.length =
       (msgs.foldl State.update s).spectrograms.length) := by
  induction msgs with
  | nil => intro s h; exact h
  | cons m rest ih =>
    intro s h
    exact ih (s.update m) (update_preserves_pairing s m h.1 h.2.1 h.2.2)

/-- One `update` step never writes into any channel's accumulated
`samples` buffer: channels it appends are created empty. -/
theorem update_preserves_empty (s : State α) (m : Message)
    (h : ∀ c ∈ s.channels, c.samples = []) :
    ∀ c ∈ (s.update m).channels, c.samples = [] := by
  cases m with
  | ThemeChanged t => exact h
  | PlayButtonPressed => exact h
  | PauseButtonPressed => exact h
  | AddNewChannelButtonPressed =>
    intro c hc
    simp [State.update] at hc
    rcases hc with hc | hc
    · exact h c hc
    · simp [hc, Channel.new]
  | ImportAudioButtonPressed file =>
    cases file with
    | none => exact h
    | some f =>
      intro c hc
      simp [State.update] at hc
      rcases hc with hc | hc
      · exact h c hc
      · simp [hc, Channel.new]

/-- Empty accumulated buffers persist along any run of `update`. -/
theorem run_empty_aux (msgs : List Message) : ∀ (s : State α),
    (∀ c ∈ s.channels, c.samples = []) →
    ∀ c ∈ (msgs.foldl State.update s).channels, c.samples = [] := by
  induction msgs with
  | nil => intro s h; exact h
  | cons m rest ih =>
    intro s h
    exact ih (s.update m) (update_preserves_empty s m h)

/-- Enqueuing through a sender whose channel has been filtered out of
the live list always reports `ChannelClosed`. -/
theorem enqueueList_removed (i : Nat) (y : α) : ∀ (l : List (Channel α)),
    enqueueList (l.filter (fun c => c.chanId != i)) i y =
      Except.error ChannelError.ChannelClosed := by
  intro l
  induction l with
  | nil => rfl
  | cons c cs ih =>
    by_cases h : c.chanId = i
    · simp [List.filter_cons, h, ih]
    · simp [List.filter_cons, h, enqueueList, ih, Except.map]

/-- For a sender of a different id, enqueuing commutes with removing
channel `i` from the live list. -/
theorem enqueueList_filter_comm (i j : Nat) (x : α) (hij : j ≠ i) :
    ∀ (l : List (Channel α)),
    enqueueList (l.filter (fun c => c.chanId != i)) j x =
      (enqueueList l j x).map (fun cs => cs.filter (fun c => c.chanId != i)) := by
  intro l
  induction l with
  | nil => rfl
  | cons c cs ih =>
    have hji : ¬ (i = j) := fun hh => hij hh.symm
    by_cases hc : c.chanId = i
    · have hcj : ¬ (c.chanId = j) := fun hj => hij (hc ▸ hj).symm
      simp [List.filter_cons, hc, enqueueList, hcj, ih, except_map_comp, hji,
        Except.map]
      cases enqueueList cs j x <;> simp [List.filter_cons, hc]
    · by_cases hcj : c.chanId = j
      · by_cases hcl : c.closed <;>
          simp [List.filter_cons, hc, enqueueList, hcj, Channel.enqueue, hcl,
            except_map_comp, hij, hji, Except.map]
      · simp [List.filter_cons, hc, enqueueList, hcj, ih, except_map_comp, hij,
          hji]

/-! ### Claim theorems -/

/-- Claim C1: for every sequence of samples enqueued through a fresh
track channel's sender endpoint, followed by one `drain_pending`, the
accumulated buffer equals the enqueued sequence in arrival order (no
reordering, no loss, no duplication), and the reported drain count is
its length. -/
theorem enqueue_drain_preserves_order (α : Type) (id : Nat) (xs : List α) :
    (enqueueAll (Channel.new α id) xs).map
      (fun c => (c.drain_pending.1.samples, c.drain_pending.2)) =
    Except.ok (xs, xs.length) := by
  rw [enqueueAll_open xs (Channel.new α id) rfl]
  simp [Channel.new, Channel.drain_pending, Except.map]

/-- Claim C2 (code bug exhibit): on a state whose single track has one
accumulated sample, `view` pushes the un-loaded original spectrogram
(representation still empty), while loading the selected slice into the
track's engine would produce the representation of exactly that slice —
the load performed on the temporary clone is discarded. -/
theorem view_displays_unloaded_engine :
    (view_displayed bug_state).map Spectrogram.representation = [([] : List Int)] ∧
    ((Spectrogram.new (⟨0⟩ : Sender Int)).load
        ((samples_clone bug_state).getD 0 []) BufferSize.All).representation =
      [1] := by
  constructor <;> rfl

/-- Claim C3: in every reachable state the channel vector and the
spectrogram vector have the same length and are index-aligned — channel
ids are exactly the insertion positions and each spectrogram's sender id
matches the channel id at its own index; both halves are only ever
appended together. -/
theorem tracks_index_aligned (α : Type) (msgs : List Message) :
    (State.run α msgs).channels.length = (State.run α msgs).spectrograms.length ∧
    (State.run α msgs).channels.map Channel.chanId =
      List.range (State.run α msgs).channels.length ∧
    (State.run α msgs).spectrograms.map (fun sp => sp.sender.chanId) =
      (State.run α msgs).channels.map Channel.chanId := by
  have h := run_pairing_aux msgs (State.init α) (by simp [State.init])
  exact ⟨h.2.2, h.1, h.2.1.trans h.1.symm⟩

/-- Claim C4: selection with the "All" policy returns the entire buffer,
applying it twice (feeding the returned cursor back in) returns
identical slices, and the slices `view` hands out are exactly the "All"
selection of each channel's accumulated buffer. -/
theorem select_all_idempotent (α : Type) (s : State α) (buffer : List α)
    (cursor : Nat) :
    (select buffer BufferSize.All cursor).1 = buffer ∧
    (select buffer BufferSize.All (select buffer BufferSize.All cursor).2).1 =
      (select buffer BufferSize.All cursor).1 ∧
    samples_clone s =
      s.channels.map (fun c => (select c.samples BufferSize.All 0).1) :=
  ⟨rfl, rfl, rfl⟩

/-- Claim C5: incremental loading appends exactly the newly selected
samples to the existing representation (never recomputing from
scratch), and the slices selected incrementally across a growing buffer
partition its growth — their concatenation reproduces the full buffer,
and folding the loads over them rebuilds it on the engine. -/
theorem incremental_load_partitions (α : Type) (adds : List (List α))
    (sp : Spectrogram α) (slice : List α) :
    (sp.load slice BufferSize.Incremental).representation =
      sp.representation ++ slice ∧
    (selectChain adds ([] : List α) 0).1.flatten = (selectChain adds [] 0).2 ∧
    ((selectChain adds ([] : List α) 0).1.foldl
        (fun e sl => e.load sl BufferSize.Incremental) sp).representation =
      sp.representation ++ (selectChain adds [] 0).2 := by
  have hpart := selectChain_partitions adds ([] : List α)
  simp only [List.length_nil, List.nil_append] at hpart
  refine ⟨load_incremental_append sp slice, hpart, ?_⟩
  rw [foldl_load_incremental, hpart]

/-- Claim C6: after a track is removed, enqueuing through that track's
sender handle fails with `ChannelClosed`, and for any track of a
different id enqueuing is unaffected — it commutes with the removal. -/
theorem enqueue_after_remove_track (w : ChannelWorld α) (i j : Nat) (x y : α)
    (h : j ≠ i) :
    (w.remove_track i).enqueue ⟨i⟩ y = Except.error ChannelError.ChannelClosed ∧
    (w.remove_track i).enqueue ⟨j⟩ x =
      (w.enqueue ⟨j⟩ x).map (fun w2 => w2.remove_track i) := by
  constructor
  · simp [ChannelWorld.enqueue, ChannelWorld.remove_track, enqueueList_removed,
      Except.map]
  · simp [ChannelWorld.enqueue, ChannelWorld.remove_track,
      enqueueList_filter_comm i j x h w.channels, except_map_comp]

/-- Witness for claim C6 at a concrete two-track registry. -/
theorem enqueue_after_remove_track_witness :
    (1 : Nat) ≠ 0 ∧
    ((w6.remove_track 0).enqueue ⟨0⟩ 5 = Except.error ChannelError.ChannelClosed ∧
     (w6.remove_track 0).enqueue ⟨1⟩ 7 =
       (w6.enqueue ⟨1⟩ 7).map (fun w2 => w2.remove_track 0)) :=
  ⟨by decide, enqueue_after_remove_track w6 0 1 7 5 (by decide)⟩

/-- Claim C7: creating a track channel yields an empty accumulated
buffer, an empty transport queue, and a send/receive pair fresh with
respect to every channel already in the registry; `assign_sender` leaves
the channel untouched and repeated calls return the same logical
endpoint. -/
theorem create_fresh_channel (w : ChannelWorld α) (c : Channel α)
    (hw : ∀ d ∈ w.channels, d.chanId < w.nextId) (hc : c ∈ w.channels) :
    (w.create).2.channels.getLast? = some (Channel.new α w.nextId) ∧
    (Channel.new α w.nextId).samples = [] ∧
    (Channel.new α w.nextId).pending = [] ∧
    c.chanId ≠ (w.create).1.chanId ∧
    (c.assign_sender).2 = c ∧
    ((c.assign_sender).2.assign_sender).1 = (c.assign_sender).1 := by
  refine ⟨?_, rfl, rfl, ?_, rfl, rfl⟩
  · simp [ChannelWorld.create]
  · exact Nat.ne_of_lt (hw c hc)

/-- Witness for claim C7 at a concrete one-track registry. -/
theorem create_fresh_channel_witness :
    (w7.create).2.channels.getLast? = some (Channel.new Int 1) ∧
    (Channel.new Int 1).samples = [] ∧
    (Channel.new Int 1).pending = [] ∧
    (Channel.new Int 0).chanId ≠ (w7.create).1.chanId ∧
    ((Channel.new Int 0).assign_sender).2 = Channel.new Int 0 ∧
    (((Channel.new Int 0).assign_sender).2.assign_sender).1 =
      ((Channel.new Int 0).assign_sender).1 :=
  create_fresh_channel w7 (Channel.new Int 0) (by decide) (by decide)

/-- Claim C8: the import file dialog offers exactly four filters, whose
extensions are exactly flac, mp3, ogg and wav, in that order and with
nothing else. -/
theorem file_dialog_extension_set :
    file_dialog_filters.map Prod.snd = [["flac"], ["mp3"], ["ogg"], ["wav"]] ∧
    (file_dialog_filters.map Prod.snd).flatten = ["flac", "mp3", "ogg", "wav"] ∧
    file_dialog_filters.length = 4 :=
  ⟨rfl, rfl, rfl⟩

/-- Claim C9: in every reachable state every channel's accumulated
`samples` buffer is empty — no operation ever drains the transport queue
into it — so every per-track slice `view` builds (and hands to `load`)
is the empty slice. -/
theorem accumulated_buffers_always_empty (α : Type) (msgs : List Message) :
    (∀ c ∈ (State.run α msgs).channels, c.samples = []) ∧
    (∀ l ∈ samples_clone (State.run α msgs), l = []) ∧
    (∀ i : Nat, (samples_clone (State.run α msgs)).getD i [] = []) := by
  have h := run_empty_aux msgs (State.init α) (by simp [State.init])
  have h2 : ∀ l ∈ samples_clone (State.run α msgs), l = [] := by
    intro l hl
    simp only [samples_clone, List.mem_map] at hl
    obtain ⟨c, hc, rfl⟩ := hl
    exact h c hc
  refine ⟨h, h2, ?_⟩
  intro i
  rcases hg : (samples_clone (State.run α msgs))[i]? with _ | l
  · simp [List.getD, hg]
  · exact (by simp [List.getD, hg] : _ = l).trans (h2 l (List.getElem?_mem hg))

/-- Claim C10: when the import-audio dialog returns no file, the update
leaves the channel and spectrogram collections — indeed the whole state
— unchanged. -/
theorem import_cancel_leaves_state (α : Type) (s : State α) :
    (s.update (Message.ImportAudioButtonPressed none)).channels = s.channels ∧
    (s.update (Message.ImportAudioButtonPressed none)).spectrograms =
      s.spectrograms ∧
    s.update (Message.ImportAudioButtonPressed none) = s :=
  ⟨rfl, rfl, rfl⟩

end Impulse
